import Mathlib

/-!
Shallow embedding of the discogs-SR crawl pipeline (Python sources under
`src/scraper/`, `src/ingestion/` and `src/sr_discogs/`) together with
theorems about it.  Numeric values that the Python code handles as floats
(ratings, delays, timestamps) are modelled as rationals; SQLite tables are
modelled as Lean lists of row structures; fallible code returns `Except` or
is paired with an `Option` error component.
-/

/-! ## Rating extraction (src/scraper/parsers.py, `_extract_rating`)

The `data-rating` / `data-value` branch of `_extract_rating` runs
`rating = coerce_float(attr)` and then
`if rating is not None and rating > 5: rating = rating / 100`.
`extractDataRating` models that branch, taking the already-coerced float
(`coerce_float("90") = 90.0`, `coerce_float("4.5") = 4.5`) as an
`Option ℚ` (`none` models a failed coercion). -/

def extractDataRating (coerced : Option ℚ) : Option ℚ :=
  match coerced with
  | none => none
  | some r => if 5 < r then some (r / 100) else some r

/-! ## Python keyword-only call binding (src/scraper/db.py `upsert_item`,
src/scraper/pipeline.py `_persist_release`, src/ingestion/db.py
`IngestionRepository.upsert_item`)

`upsert_item` in src/scraper/db.py declares twelve keyword-only parameters,
none of which has a default.  Python raises `TypeError` at the call site,
before the function body runs, when any of them is not supplied.  `pyCall`
models that binding step: the body value is produced only when every
required parameter is provided. -/

inductive PyExc where
  | typeError (missing : List String)
  | parseError
  deriving DecidableEq, Repr

def missingKwArgs (params provided : List String) : List String :=
  params.filter (fun p => !(provided.contains p))

def pyCall {α : Type} (params provided : List String) (body : α) : Except PyExc α :=
  if missingKwArgs params provided = [] then .ok body
  else .error (.typeError (missingKwArgs params provided))

/-- Keyword-only parameters of `upsert_item` (src/scraper/db.py:291-306),
in declaration order; none has a default. -/
def upsertItemParams : List String :=
  ["item_id", "source_release_id", "title", "artists", "year", "genres",
   "styles", "image_url", "country", "released", "format_summary",
   "label_summary"]

/-- Keyword arguments passed to `upsert_item` by
`DiscogsScraperPipeline._persist_release` (src/scraper/pipeline.py:289-298). -/
def persistReleaseUpsertKwargs : List String :=
  ["item_id", "title", "artists", "year", "genres", "styles", "image_url"]

/-- Keyword arguments passed to `scraper_db.upsert_item` by
`IngestionRepository.upsert_item` (src/ingestion/db.py:160-169). -/
def ingestionUpsertKwargs : List String :=
  ["item_id", "title", "artists", "year", "genres", "styles", "image_url"]

/-! ## Per-release crawl loop (src/scraper/pipeline.py, `crawl`, lines 230-259)

For each release summary the loop runs `_fetch_release_detail` (which both
fetches and parses the detail page) inside `try ... except RuntimeError`,
logging and continuing on `RuntimeError`; any other exception propagates.
On success it calls `_persist_release`, whose `upsert_item` call is subject
to the binding step above.  `FetchOutcome` abstracts what
`_fetch_release_detail` does for one release. -/

inductive FetchOutcome where
  | fetchFailure
  | parseFailure
  | detailOk
  deriving DecidableEq, Repr

structure CrawlStats where
  processed : Nat
  persisted : Nat
  skipped : Nat
  deriving DecidableEq, Repr

/-- Result of the `upsert_item` call made by `_persist_release`; the body
is irrelevant because binding fails first. -/
def persistReleaseCall : Except PyExc Unit :=
  pyCall upsertItemParams persistReleaseUpsertKwargs ()

def crawlReleasesAux : List FetchOutcome → CrawlStats → CrawlStats × Option PyExc
  | [], stats => (stats, none)
  | o :: rest, stats =>
    match o with
    | .fetchFailure =>
        crawlReleasesAux rest { stats with skipped := stats.skipped + 1 }
    | .parseFailure => (stats, some .parseError)
    | .detailOk =>
        match persistReleaseCall with
        | .error e => (stats, some e)
        | .ok _ =>
            crawlReleasesAux rest
              { stats with processed := stats.processed + 1,
                           persisted := stats.persisted + 1 }

def crawlReleases (outcomes : List FetchOutcome) : CrawlStats × Option PyExc :=
  crawlReleasesAux outcomes ⟨0, 0, 0⟩

/-! ## Persistence layer (src/scraper/db.py)

SQLite tables are modelled as lists of row structures, scanned in rowid
order.  `upsert_item` and `record_interaction` are `INSERT ... ON CONFLICT
DO UPDATE` statements over the `items(item_id)` primary key and the
`interactions(user_id, item_id, interaction_type)` unique index;
`_deduplicate_interactions` is the `DELETE` that keeps the highest rowid
per key group.  SQL `COALESCE` is `coalesce` below; text ratings and
weights are rationals. -/

def coalesce {α : Type} : Option α → Option α → Option α
  | some x, _ => some x
  | none, b => b

/-- Lexicographic code-point order on strings, as Python's `sorted` uses. -/
def charListLe : List Char → List Char → Bool
  | [], _ => true
  | _ :: _, [] => false
  | a :: as, b :: bs =>
    if a.toNat < b.toNat then true
    else if b.toNat < a.toNat then false
    else charListLe as bs

def strLe (a b : String) : Bool :=
  charListLe a.data b.data

def insertSorted (s : String) : List String → List String
  | [] => [s]
  | t :: rest => if strLe s t then s :: t :: rest else t :: insertSorted s rest

def sortStrings : List String → List String
  | [] => []
  | s :: rest => insertSorted s (sortStrings rest)

/-- Model of `", ".join(sorted({x for x in xs if x}))` in `upsert_item`:
drop falsy entries, deduplicate, sort, join with the standard ", "
delimiter. -/
def joinMultiValue (xs : List String) : String :=
  String.intercalate ", " (sortStrings ((xs.filter (fun s => s ≠ "")).eraseDups))

structure ItemRow where
  item_id : Int
  source_release_id : Option Int
  title : String
  artist : String
  year : Option Int
  genre : String
  style : String
  image_url : Option String
  country : Option String
  released : Option String
  format_summary : Option String
  label_summary : Option String
  deriving DecidableEq, Repr

/-- Arguments of `upsert_item` (src/scraper/db.py:291-306), as passed by a
caller that supplies every keyword. -/
structure UpsertItemArgs where
  item_id : Int
  source_release_id : Int
  title : String
  artists : String
  year : Option Int
  genres : List String
  styles : List String
  image_url : Option String
  country : Option String
  released : Option String
  format_summary : Option String
  label_summary : Option String
  deriving DecidableEq, Repr

/-- Value bound for the `title` column: `title or "Unknown Title"`
(src/scraper/db.py:345); the empty string is falsy in Python. -/
def upsertItemBoundTitle (a : UpsertItemArgs) : String :=
  if a.title = "" then "Unknown Title" else a.title

/-- Value bound for the `artist` column: `artists or "Unknown Artist"`. -/
def upsertItemBoundArtist (a : UpsertItemArgs) : String :=
  if a.artists = "" then "Unknown Artist" else a.artists

/-- Row produced when no `items` row with this `item_id` exists. -/
def upsertItemNewRow (a : UpsertItemArgs) : ItemRow :=
  { item_id := a.item_id
    source_release_id := some a.source_release_id
    title := upsertItemBoundTitle a
    artist := upsertItemBoundArtist a
    year := a.year
    genre := joinMultiValue a.genres
    style := joinMultiValue a.styles
    image_url := a.image_url
    country := a.country
    released := a.released
    format_summary := a.format_summary
    label_summary := a.label_summary }

/-- The `ON CONFLICT(item_id) DO UPDATE SET` clause
(src/scraper/db.py:329-340) applied to the existing row. -/
def upsertItemMerge (old : ItemRow) (a : UpsertItemArgs) : ItemRow :=
  let excludedTitle := upsertItemBoundTitle a
  let excludedArtist := upsertItemBoundArtist a
  { old with
    source_release_id := coalesce (some a.source_release_id) old.source_release_id
    title := if excludedTitle ≠ "" then excludedTitle else old.title
    artist := if excludedArtist ≠ "" then excludedArtist else old.artist
    year := coalesce a.year old.year
    genre := joinMultiValue a.genres
    style := joinMultiValue a.styles
    image_url := coalesce a.image_url old.image_url
    country := coalesce a.country old.country
    released := coalesce a.released old.released
    format_summary := coalesce a.format_summary old.format_summary
    label_summary := coalesce a.label_summary old.label_summary }

def upsertItem (table : List ItemRow) (a : UpsertItemArgs) : List ItemRow :=
  if table.any (fun r => r.item_id == a.item_id) then
    table.map (fun r => if r.item_id == a.item_id then upsertItemMerge r a else r)
  else
    table ++ [upsertItemNewRow a]

structure InteractionRow where
  rowid : Nat
  user_id : String
  item_id : Int
  interaction_type : String
  rating : Option ℚ
  weight : ℚ
  source : Option String
  date_added : Option String
  event_ts : Option String
  review_text : Option String
  deriving DecidableEq, Repr

def sameKey (r : InteractionRow) (u : String) (i : Int) (t : String) : Bool :=
  r.user_id == u && r.item_id == i && r.interaction_type == t

def sameKeyRows (r r' : InteractionRow) : Bool :=
  r.user_id == r'.user_id && r.item_id == r'.item_id &&
    r.interaction_type == r'.interaction_type

def nextRowid (table : List InteractionRow) : Nat :=
  (table.map (fun r => r.rowid)).foldr Nat.max 0 + 1

/-- Model of `record_interaction` (src/scraper/db.py:359-377): insert with
`weight` defaulting to 1 and `source`/`event_ts`/`review_text` NULL, or on
key conflict update only `rating` (always) and `date_added`
(COALESCE toward the incoming value). -/
def recordInteraction (table : List InteractionRow) (u : String) (i : Int)
    (t : String) (rating : Option ℚ) (date_added : Option String) :
    List InteractionRow :=
  if table.any (fun r => sameKey r u i t) then
    table.map (fun r =>
      if sameKey r u i t then
        { r with rating := rating, date_added := coalesce date_added r.date_added }
      else r)
  else
    table ++ [⟨nextRowid table, u, i, t, rating, 1, none, date_added, none, none⟩]

/-- Model of `_deduplicate_interactions` (src/scraper/db.py:257-267): keep
exactly the rows whose rowid is maximal within their
`(user_id, item_id, interaction_type)` group. -/
def deduplicateInteractions (table : List InteractionRow) : List InteractionRow :=
  table.filter (fun r =>
    table.all (fun r' => !(sameKeyRows r r') || decide (r'.rowid ≤ r.rowid)))

/-- Uniqueness invariant installed by `ensure_schema`: at most one
interactions row per `(user_id, item_id, interaction_type)`. -/
abbrev AtMostOnePerKey (table : List InteractionRow) : Prop :=
  ∀ r1 ∈ table, ∀ r2 ∈ table,
    r1.user_id = r2.user_id → r1.item_id = r2.item_id →
    r1.interaction_type = r2.interaction_type → r1 = r2

/-- SQLite rowids are distinct within a table. -/
abbrev RowidsDistinct (table : List InteractionRow) : Prop :=
  table.Pairwise (fun r r' => r.rowid ≠ r'.rowid)

/-! Example tables used by witnesses. -/

def exampleInteractions : List InteractionRow :=
  [⟨1, "collector1", 12345, "collection", none, 1, none, none, none, none⟩,
   ⟨2, "collector1", 12345, "collection", none, 1, none, some "2024-01-01", none, none⟩,
   ⟨3, "wanter1", 12345, "wantlist", none, 1, none, none, none, none⟩]

def exampleDeduped : List InteractionRow :=
  [⟨2, "collector1", 12345, "collection", none, 1, none, some "2024-01-01", none, none⟩,
   ⟨3, "wanter1", 12345, "wantlist", none, 1, none, none, none, none⟩]

/-! Concrete items rows used for C6 and C5. -/

def exampleExistingItem : ItemRow :=
  { item_id := 12345, source_release_id := some 12345, title := "Album Title",
    artist := "Some Artist", year := some 2001, genre := "Electronic",
    style := "House", image_url := none, country := none, released := none,
    format_summary := none, label_summary := none }

def exampleBlankUpsert : UpsertItemArgs :=
  { item_id := 12345, source_release_id := 12345, title := "", artists := "",
    year := none, genres := ["Rock", "Electronic", "Rock", ""], styles := [],
    image_url := none, country := none, released := none,
    format_summary := none, label_summary := none }

/-! ## Rate-limited session (src/scraper/http.py, `DiscogsScraperSession.get`)

The `while True` loop makes attempt `n` (the `retries` counter) and, on a
transport exception or a retryable status, checks `retries >= max_retries`:
if the budget is exhausted it raises a `RuntimeError` carrying the absolute
URL, otherwise it sleeps `min_delay * backoff_factor ** retries` and
retries.  Any other non-2xx status raises immediately.  `outcomes n` is the
network's answer to attempt `n`; the first argument of `sessionGetAux` is
`max_retries - retries`, kept in lockstep with the counter by the loop. -/

inductive HttpOutcome where
  | transportError
  | status (code : Nat)
  deriving DecidableEq, Repr

def isSuccess (c : Nat) : Bool :=
  decide (200 ≤ c) && decide (c < 300)

def retryableStatus (c : Nat) : Bool :=
  c == 403 || c == 429 || c == 500 || c == 502 || c == 503 || c == 504

def retryableOutcome : HttpOutcome → Bool
  | .transportError => true
  | .status c => !(isSuccess c) && retryableStatus c

inductive FetchError where
  | transportExhausted (url : String)
  | statusExhausted (url : String) (code : Nat)
  | unexpectedStatus (url : String) (code : Nat)
  deriving DecidableEq, Repr

/-- URL carried by a terminal fetch error. -/
def errUrl : Except FetchError Nat → Option String
  | .ok _ => none
  | .error (.transportExhausted u) => some u
  | .error (.statusExhausted u _) => some u
  | .error (.unexpectedStatus u _) => some u

structure GetTrace where
  sleeps : List ℚ
  attempts : Nat
  result : Except FetchError Nat
  deriving Repr

def sessionGetAux (url : String) (minDelay bf : ℚ)
    (outcomes : Nat → HttpOutcome) : Nat → Nat → GetTrace
  | 0, n =>
    match outcomes n with
    | .transportError => ⟨[], 1, .error (.transportExhausted url)⟩
    | .status c =>
      if isSuccess c then ⟨[], 1, .ok c⟩
      else if retryableStatus c then ⟨[], 1, .error (.statusExhausted url c)⟩
      else ⟨[], 1, .error (.unexpectedStatus url c)⟩
  | r + 1, n =>
    match outcomes n with
    | .transportError =>
      let t := sessionGetAux url minDelay bf outcomes r (n + 1)
      ⟨minDelay * bf ^ n :: t.sleeps, t.attempts + 1, t.result⟩
    | .status c =>
      if isSuccess c then ⟨[], 1, .ok c⟩
      else if retryableStatus c then
        let t := sessionGetAux url minDelay bf outcomes r (n + 1)
        ⟨minDelay * bf ^ n :: t.sleeps, t.attempts + 1, t.result⟩
      else ⟨[], 1, .error (.unexpectedStatus url c)⟩

def sessionGet (url : String) (minDelay bf : ℚ) (maxRetries : Nat)
    (outcomes : Nat → HttpOutcome) : GetTrace :=
  sessionGetAux url minDelay bf outcomes maxRetries 0

/-! ## Domain models (src/scraper/models.py) and item-id resolution
(src/sr_discogs/recomendar.py, `_resolve_item_id_cached`)

Dates are modelled as strings; ratings as rationals.  The resolver first
looks `items` up by `item_id` and, on a miss, by `source_release_id`
(each with `LIMIT 1`, modelled by `List.find?` in scan order); the
`lru_cache` wrapper is transparent for the pure lookup. -/

structure LabelCredit where
  label_id : Option Int
  name : String
  catalog_number : Option String
  deriving DecidableEq, Repr

structure FormatInfo where
  name : String
  quantity : Option Int
  descriptions : List String
  notes : Option String
  deriving DecidableEq, Repr

structure Review where
  username : String
  rating : Option ℚ
  review_text : String
  date : Option String
  deriving DecidableEq, Repr

structure ReleaseSummary where
  release_id : Int
  title : String
  artists : String
  year : Option Int
  url : String
  have_count : Option Int
  want_count : Option Int
  average_rating : Option ℚ
  ratings_count : Option Int
  deriving DecidableEq, Repr

structure ReleaseDetail where
  release_id : Int
  title : String
  artists : String
  year : Option Int
  master_id : Option Int
  country : Option String
  released : Option String
  genres : List String
  styles : List String
  labels : List LabelCredit
  label_summary : Option String
  formats : List FormatInfo
  format_summary : Option String
  image_url : Option String
  reviews : List Review
  have_users : List String
  want_users : List String
  deriving DecidableEq, Repr

/-- The value `_persist_release` passes as `item_id`:
`release_id = detail.release_id or summary.release_id`
(src/scraper/pipeline.py:288-291); 0 is the falsy int. -/
def persistReleaseItemIdArg (detail : ReleaseDetail) (summary : ReleaseSummary) : Int :=
  if detail.release_id = 0 then summary.release_id else detail.release_id

def resolveItemId (candidate : Int) (t : List ItemRow) : Option Int :=
  match t.find? (fun r => r.item_id == candidate) with
  | some r => some r.item_id
  | none =>
    match t.find? (fun r => r.source_release_id == some candidate) with
    | some r => some r.item_id
    | none => none

/-- Items row for a release first observed under a master: the canonical id
is the master id, the concrete pressing id is `source_release_id`. -/
def exampleMasterRow : ItemRow :=
  { item_id := 1000, source_release_id := some 5000, title := "Album Title",
    artist := "Some Artist", year := some 2001, genre := "Electronic",
    style := "House", image_url := none, country := none, released := none,
    format_summary := none, label_summary := none }

/-- Items row for a release with no master: it is its own canonical id. -/
def exampleSelfRow : ItemRow :=
  { item_id := 6000, source_release_id := some 6000, title := "Other Title",
    artist := "Other Artist", year := some 1999, genre := "", style := "",
    image_url := none, country := none, released := none,
    format_summary := none, label_summary := none }

def exampleDetail5000 : ReleaseDetail :=
  { release_id := 5000, title := "Album Title", artists := "Some Artist",
    year := some 2001, master_id := some 1000, country := none,
    released := none, genres := ["Electronic"], styles := ["House"],
    labels := [], label_summary := none, formats := [],
    format_summary := none, image_url := none, reviews := [],
    have_users := [], want_users := [] }

def exampleSummary5000 : ReleaseSummary :=
  { release_id := 5000, title := "Album Title", artists := "Some Artist",
    year := some 2001, url := "/release/5000", have_count := some 10,
    want_count := some 3, average_rating := none, ratings_count := none }

/-! ## Cookie loader (src/scraper/auth.py, `CookieFileLoader._get_cookie_jar`)

State: the cached jar, the mtime recorded at the last successful load, the
monotonic time of the last refresh, and the configured reload interval.
Inputs of one call: `force`, the file's current mtime (`none` models
`FileNotFoundError`), the current monotonic time, and the outcome of
`_load_from_disk` (`Except.error` models a parse exception, which the method
catches, returning the previously cached jar).  The `_warned_missing` /
logging side effects are not modelled.  A jar is a list of (name, value)
cookies. -/

structure LoaderState where
  cachedJar : Option (List (String × String))
  lastMtime : Option ℚ
  lastRefresh : Option ℚ
  reloadInterval : Option ℚ
  deriving DecidableEq, Repr

structure CookieJarResult where
  jar : Option (List (String × String))
  state : LoaderState
  reparsed : Bool
  deriving DecidableEq, Repr

/-- Model of `if self.reload_interval is not None and self.reload_interval <= 0:
self.reload_interval = None` (src/scraper/auth.py:130-131). -/
def normalizeInterval : Option ℚ → Option ℚ
  | some iv => if iv ≤ 0 then none else some iv
  | none => none

/-- Model of the interval clause `self.reload_interval is not None and
self._last_refresh is not None and now - self._last_refresh >=
self.reload_interval` (src/scraper/auth.py:139-145). -/
def intervalElapsed (interval lastRefresh : Option ℚ) (now : ℚ) : Bool :=
  match interval, lastRefresh with
  | some iv, some lr => decide (now - lr ≥ iv)
  | _, _ => false

def getCookieJar (s : LoaderState) (force : Bool) (mtime : Option ℚ) (now : ℚ)
    (parse : Except Unit (List (String × String))) : CookieJarResult :=
  match mtime with
  | none => ⟨none, s, false⟩
  | some m =>
    let interval := normalizeInterval s.reloadInterval
    let s1 : LoaderState := { s with reloadInterval := interval }
    let mtimeChanged : Bool :=
      match s.lastMtime with
      | some m0 => decide (m ≠ m0)
      | none => false
    let needRefresh :=
      (force || s.cachedJar.isNone) || mtimeChanged ||
        intervalElapsed interval s.lastRefresh now
    if needRefresh then
      match parse with
      | .error _ => ⟨s1.cachedJar, s1, true⟩
      | .ok jar => ⟨some jar, ⟨some jar, some m, some now, interval⟩, true⟩
    else ⟨s.cachedJar, s1, false⟩

/-! ## Extended user-list fetch (src/scraper/pipeline.py, `_fetch_user_list`)

The loop over `page in range(1, max_user_pages + 1)` breaks on a fetch
`RuntimeError`, on a page with no usernames, when every username on the page
was already seen (case-insensitively), and — after ingesting the new names —
whenever `len(new_names) < len(usernames)`, i.e. when the page contains at
least one already-seen username.  `pages p` is the parsed username list of
stats page `p` (or a fetch failure); the first argument of the recursion is
the number of loop iterations left, kept in lockstep with the 1-based page
counter. -/

inductive PageOutcome where
  | fetchError
  | pageUsers (names : List String)
  deriving DecidableEq, Repr

inductive StopReason where
  | fetchFail
  | emptyPage
  | allDuplicates
  | partialDuplicates
  deriving DecidableEq, Repr

structure UserListResult where
  collected : List String
  pagesFetched : Nat
  stopReason : Option StopReason
  deriving DecidableEq, Repr

/-- ASCII lowering, modelling Python's `str.lower()` on the usernames the
pages carry (`username.lower()` in `_fetch_user_list`). -/
def lowerChar (c : Char) : Char :=
  if 65 ≤ c.toNat ∧ c.toNat ≤ 90 then Char.ofNat (c.toNat + 32) else c

def strLower (s : String) : String :=
  String.mk (s.data.map lowerChar)

def fetchUserListAux (pages : Nat → PageOutcome) :
    Nat → Nat → List String → List String → Nat → UserListResult
  | 0, _, _, collected, fetched => ⟨collected, fetched, none⟩
  | r + 1, page, seen, collected, fetched =>
    match pages page with
    | .fetchError => ⟨collected, fetched + 1, some .fetchFail⟩
    | .pageUsers names =>
      if names.isEmpty then ⟨collected, fetched + 1, some .emptyPage⟩
      else
        let newNames := names.filter (fun u => !(seen.contains (strLower u)))
        if newNames.isEmpty then ⟨collected, fetched + 1, some .allDuplicates⟩
        else if newNames.length < names.length then
          ⟨collected ++ newNames, fetched + 1, some .partialDuplicates⟩
        else
          fetchUserListAux pages r (page + 1)
            (seen ++ newNames.map (fun u => strLower u)) (collected ++ newNames)
            (fetched + 1)

def fetchUserList (pages : Nat → PageOutcome) (maxUserPages : Nat) :
    UserListResult :=
  fetchUserListAux pages maxUserPages 1 [] [] 0

/-- Stats pages for a release: page 2 repeats one of page 1's three
usernames (a minority), page 3 is fresh. -/
def examplePages : Nat → PageOutcome
  | 1 => .pageUsers ["a", "b", "c"]
  | 2 => .pageUsers ["a", "d", "e"]
  | 3 => .pageUsers ["x", "y"]
  | _ => .pageUsers []

/-! ## Theorems -/

/-- C3: the claim says inputs 4.5, "90" and 0.9 each normalize to 4.5 on the
0–5 scale.  On the code, `_extract_rating` divides a value above 5 by 100, so
"90" yields 0.9 (not 4.5) and 0.9 is passed through unchanged (not rescaled
to 4.5). -/
theorem rating_normalization_counterexample :
    extractDataRating (some 90) = some (9 / 10) ∧
      extractDataRating (some (9 / 10)) = some (9 / 10) ∧
      ((9 : ℚ) / 10) ≠ 9 / 2 := by
  refine ⟨?_, ?_, by norm_num⟩
  · simp only [extractDataRating]
    norm_num
  · simp only [extractDataRating]
    norm_num

/-- C3 (amended): 4.5 normalizes to 4.5; a value above 5 (such as the coerced
"90") is divided by 100, so "90" normalizes to 0.9; a value of at most 5
(such as 0.9) is returned unchanged. -/
theorem rating_normalization_amended :
    extractDataRating (some (9 / 2)) = some (9 / 2) ∧
      extractDataRating (some 90) = some (9 / 10) ∧
      extractDataRating (some (9 / 10)) = some (9 / 10) ∧
      (∀ r : ℚ, 5 < r → extractDataRating (some r) = some (r / 100)) ∧
      (∀ r : ℚ, r ≤ 5 → extractDataRating (some r) = some r) := by
  refine ⟨?_, ?_, ?_, ?_, ?_⟩
  · simp only [extractDataRating]; norm_num
  · simp only [extractDataRating]; norm_num
  · simp only [extractDataRating]; norm_num
  · intro r hr
    simp only [extractDataRating, if_pos hr]
  · intro r hr
    simp only [extractDataRating, if_neg (not_lt.mpr hr)]

/-- C3 (amended) witness at the concrete scales named by the claim. -/
theorem rating_normalization_amended_witness :
    extractDataRating (some 90) = some (90 / 100) ∧
      extractDataRating (some (9 / 10)) = some (9 / 10) := by
  have h := rating_normalization_amended
  exact ⟨h.2.2.2.1 90 (by norm_num), h.2.2.2.2 (9 / 10) (by norm_num)⟩

theorem persistReleaseCall_eq :
    persistReleaseCall =
      .error (.typeError
        ["source_release_id", "country", "released", "format_summary",
         "label_summary"]) := by
  rfl

theorem crawlReleasesAux_persisted (outcomes : List FetchOutcome)
    (stats : CrawlStats) :
    (crawlReleasesAux outcomes stats).1.persisted = stats.persisted := by
  induction outcomes generalizing stats with
  | nil => rfl
  | cons o rest ih =>
    cases o with
    | fetchFailure => simpa [crawlReleasesAux] using ih _
    | parseFailure => rfl
    | detailOk => simp [crawlReleasesAux, persistReleaseCall_eq]

/-- C1: the `upsert_item` call in `_persist_release` omits the required
keyword-only parameters `source_release_id`, `country`, `released`,
`format_summary` and `label_summary`, so Python raises `TypeError` before the
function body (and hence any SQL write) runs; `IngestionRepository.upsert_item`
passes the same incomplete keyword set and fails identically; consequently no
run of the crawl loop ever persists a release. -/
theorem persist_release_upsert_call_type_error :
    missingKwArgs upsertItemParams persistReleaseUpsertKwargs =
        ["source_release_id", "country", "released", "format_summary",
         "label_summary"] ∧
      missingKwArgs upsertItemParams ingestionUpsertKwargs =
        ["source_release_id", "country", "released", "format_summary",
         "label_summary"] ∧
      (∀ (α : Type) (body : α),
        pyCall upsertItemParams persistReleaseUpsertKwargs body =
          .error (.typeError
            ["source_release_id", "country", "released", "format_summary",
             "label_summary"])) ∧
      (∀ (α : Type) (body : α),
        pyCall upsertItemParams ingestionUpsertKwargs body =
          .error (.typeError
            ["source_release_id", "country", "released", "format_summary",
             "label_summary"])) ∧
      (∀ outcomes : List FetchOutcome,
        (crawlReleases outcomes).1.persisted = 0) := by
  refine ⟨by decide, by decide, ?_, ?_, ?_⟩
  · intro α body
    rfl
  · intro α body
    rfl
  · intro outcomes
    simpa using crawlReleasesAux_persisted outcomes ⟨0, 0, 0⟩

/-- C7: the claim says a failure to fetch or parse a release detail page is
logged and the run continues.  On the code, only `RuntimeError` (fetch
failures) is caught; an exception raised while parsing the detail content is
not caught, so a single unparseable page aborts the whole run: here the first
release's parse failure stops the crawl before the second release is even
attempted (its `skipped` count stays 0). -/
theorem crawl_parse_error_aborts :
    crawlReleases [FetchOutcome.parseFailure, FetchOutcome.fetchFailure] =
      (⟨0, 0, 0⟩, some PyExc.parseError) := by
  rfl

theorem crawlReleasesAux_all_fetch_failures (outcomes : List FetchOutcome)
    (stats : CrawlStats) (h : ∀ o ∈ outcomes, o = FetchOutcome.fetchFailure) :
    crawlReleasesAux outcomes stats =
      ({ stats with skipped := stats.skipped + outcomes.length }, none) := by
  induction outcomes generalizing stats with
  | nil => rfl
  | cons o rest ih =>
    have ho : o = FetchOutcome.fetchFailure := h o (List.mem_cons_self o rest)
    subst ho
    have hrest : ∀ o ∈ rest, o = FetchOutcome.fetchFailure := fun o hm =>
      h o (List.mem_cons_of_mem _ hm)
    simp only [crawlReleasesAux, ih _ hrest, List.length_cons]
    have harith : stats.skipped + 1 + rest.length = stats.skipped + (rest.length + 1) := by
      omega
    rw [harith]

theorem crawlReleasesAux_prefix_parse_failure (pre post : List FetchOutcome)
    (stats : CrawlStats) (h : ∀ o ∈ pre, o = FetchOutcome.fetchFailure) :
    crawlReleasesAux (pre ++ FetchOutcome.parseFailure :: post) stats =
      ({ stats with skipped := stats.skipped + pre.length }, some PyExc.parseError) := by
  induction pre generalizing stats with
  | nil => simp [crawlReleasesAux]
  | cons o rest ih =>
    have ho : o = FetchOutcome.fetchFailure := h o (List.mem_cons_self o rest)
    subst ho
    have hrest : ∀ o ∈ rest, o = FetchOutcome.fetchFailure := fun o hm =>
      h o (List.mem_cons_of_mem _ hm)
    simp only [List.cons_append, crawlReleasesAux, List.append_eq, ih _ hrest,
      List.length_cons]
    have harith : stats.skipped + 1 + rest.length = stats.skipped + (rest.length + 1) := by
      omega
    rw [harith]

/-- C7 (amended): per-release fetch failures (`RuntimeError` from the session:
retry exhaustion or an unexpected non-2xx status) are logged and the loop
continues with the next release, so a run whose releases all fail to fetch
completes normally; but an exception raised while parsing detail content is
not a `RuntimeError`, is not caught, and aborts the run at that release. -/
theorem crawl_fetch_failures_skipped :
    (∀ outcomes : List FetchOutcome,
        (∀ o ∈ outcomes, o = FetchOutcome.fetchFailure) →
        crawlReleases outcomes = (⟨0, 0, outcomes.length⟩, none)) ∧
      (∀ pre post : List FetchOutcome,
        (∀ o ∈ pre, o = FetchOutcome.fetchFailure) →
        crawlReleases (pre ++ FetchOutcome.parseFailure :: post) =
          (⟨0, 0, pre.length⟩, some PyExc.parseError)) := by
  constructor
  · intro outcomes h
    simpa [crawlReleases] using
      crawlReleasesAux_all_fetch_failures outcomes ⟨0, 0, 0⟩ h
  · intro pre post h
    simpa [crawlReleases] using
      crawlReleasesAux_prefix_parse_failure pre post ⟨0, 0, 0⟩ h

/-- C7 (amended) witness: two fetch failures are both skipped without
aborting, while a parse failure after one fetch failure aborts the run. -/
theorem crawl_fetch_failures_skipped_witness :
    crawlReleases [FetchOutcome.fetchFailure, FetchOutcome.fetchFailure] =
        (⟨0, 0, 2⟩, none) ∧
      crawlReleases [FetchOutcome.fetchFailure, FetchOutcome.parseFailure] =
        (⟨0, 0, 1⟩, some PyExc.parseError) := by
  have h := crawl_fetch_failures_skipped
  constructor
  · exact h.1 [FetchOutcome.fetchFailure, FetchOutcome.fetchFailure] (by decide)
  · exact h.2 [FetchOutcome.fetchFailure] [] (by decide)

theorem sameKey_iff (r : InteractionRow) (u : String) (i : Int) (t : String) :
    sameKey r u i t = true ↔
      (r.user_id = u ∧ r.item_id = i ∧ r.interaction_type = t) := by
  simp [sameKey, and_assoc]

theorem sameKeyRows_iff (r r' : InteractionRow) :
    sameKeyRows r r' = true ↔
      (r.user_id = r'.user_id ∧ r.item_id = r'.item_id ∧
        r.interaction_type = r'.interaction_type) := by
  simp [sameKeyRows, and_assoc]

theorem recordInteraction_length_of_contains (table : List InteractionRow)
    (u : String) (i : Int) (t : String) (ra : Option ℚ) (d : Option String)
    (h : table.any (fun r => sameKey r u i t) = true) :
    (recordInteraction table u i t ra d).length = table.length := by
  simp [recordInteraction, h]

theorem recordInteraction_contains (table : List InteractionRow)
    (u : String) (i : Int) (t : String) (ra : Option ℚ) (d : Option String) :
    (recordInteraction table u i t ra d).any (fun r => sameKey r u i t) = true := by
  by_cases h : table.any (fun r => sameKey r u i t) = true
  · rw [recordInteraction, if_pos h]
    rcases List.any_eq_true.mp h with ⟨r, hr, hkey⟩
    have hmem : (if sameKey r u i t = true then
        { r with rating := ra, date_added := coalesce d r.date_added } else r) ∈
        table.map (fun r => if sameKey r u i t = true then
          { r with rating := ra, date_added := coalesce d r.date_added } else r) :=
      List.mem_map_of_mem _ hr
    rw [if_pos hkey] at hmem
    exact List.any_eq_true.mpr ⟨_, hmem, hkey⟩
  · rw [recordInteraction, if_neg h]
    refine List.any_eq_true.mpr ⟨_, List.mem_append_right _ (List.mem_singleton_self _), ?_⟩
    simp [sameKey]

theorem upsertItem_length_of_contains (table : List ItemRow)
    (a : UpsertItemArgs)
    (h : table.any (fun r => r.item_id == a.item_id) = true) :
    (upsertItem table a).length = table.length := by
  simp [upsertItem, h]

theorem upsertItem_contains (table : List ItemRow) (a : UpsertItemArgs) :
    (upsertItem table a).any (fun r => r.item_id == a.item_id) = true := by
  by_cases h : table.any (fun r => r.item_id == a.item_id) = true
  · rw [upsertItem, if_pos h]
    rcases List.any_eq_true.mp h with ⟨r, hr, hkey⟩
    have hmem : (if (r.item_id == a.item_id) = true then upsertItemMerge r a else r) ∈
        table.map (fun r =>
          if (r.item_id == a.item_id) = true then upsertItemMerge r a else r) :=
      List.mem_map_of_mem _ hr
    rw [if_pos hkey] at hmem
    refine List.any_eq_true.mpr ⟨_, hmem, ?_⟩
    simpa [upsertItemMerge] using hkey
  · rw [upsertItem, if_neg h]
    refine List.any_eq_true.mpr ⟨_, List.mem_append_right _ (List.mem_singleton_self _), ?_⟩
    simp [upsertItemNewRow]

theorem recordInteraction_preserves_unique (table : List InteractionRow)
    (u : String) (i : Int) (t : String) (ra : Option ℚ) (d : Option String)
    (h : AtMostOnePerKey table) :
    AtMostOnePerKey (recordInteraction table u i t ra d) := by
  by_cases hc : table.any (fun r => sameKey r u i t) = true
  · rw [recordInteraction, if_pos hc]
    intro r1 h1 r2 h2 hu hi ht
    rcases List.mem_map.mp h1 with ⟨s1, hs1, he1⟩
    rcases List.mem_map.mp h2 with ⟨s2, hs2, he2⟩
    have k1u : r1.user_id = s1.user_id := by
      rw [← he1]; by_cases hk : sameKey s1 u i t <;> simp [hk]
    have k1i : r1.item_id = s1.item_id := by
      rw [← he1]; by_cases hk : sameKey s1 u i t <;> simp [hk]
    have k1t : r1.interaction_type = s1.interaction_type := by
      rw [← he1]; by_cases hk : sameKey s1 u i t <;> simp [hk]
    have k2u : r2.user_id = s2.user_id := by
      rw [← he2]; by_cases hk : sameKey s2 u i t <;> simp [hk]
    have k2i : r2.item_id = s2.item_id := by
      rw [← he2]; by_cases hk : sameKey s2 u i t <;> simp [hk]
    have k2t : r2.interaction_type = s2.interaction_type := by
      rw [← he2]; by_cases hk : sameKey s2 u i t <;> simp [hk]
    have hs : s1 = s2 := by
      apply h s1 hs1 s2 hs2
      · rw [← k1u, ← k2u, hu]
      · rw [← k1i, ← k2i, hi]
      · rw [← k1t, ← k2t, ht]
    rw [← he1, ← he2, hs]
  · rw [recordInteraction, if_neg hc]
    have hnone : ∀ r ∈ table, sameKey r u i t = false := by
      intro r hr
      cases hb : sameKey r u i t with
      | false => rfl
      | true => exact absurd (List.any_eq_true.mpr ⟨r, hr, hb⟩) hc
    intro r1 h1 r2 h2 hu hi ht
    rcases List.mem_append.mp h1 with m1 | m1 <;>
      rcases List.mem_append.mp h2 with m2 | m2
    · exact h r1 m1 r2 m2 hu hi ht
    · exfalso
      have h2n := List.mem_singleton.mp m2
      have : sameKey r1 u i t = true := by
        rw [sameKey_iff, hu, hi, ht, h2n]
        exact ⟨rfl, rfl, rfl⟩
      rw [hnone r1 m1] at this
      exact Bool.false_ne_true this
    · exfalso
      have h1n := List.mem_singleton.mp m1
      have : sameKey r2 u i t = true := by
        rw [sameKey_iff, ← hu, ← hi, ← ht, h1n]
        exact ⟨rfl, rfl, rfl⟩
      rw [hnone r2 m2] at this
      exact Bool.false_ne_true this
    · rw [List.mem_singleton.mp m1, List.mem_singleton.mp m2]

theorem exists_max_rowid (l : List InteractionRow) (hne : l ≠ []) :
    ∃ m ∈ l, ∀ x ∈ l, x.rowid ≤ m.rowid := by
  induction l with
  | nil => exact absurd rfl hne
  | cons a rest ih =>
    by_cases hrest : rest = []
    · subst hrest
      refine ⟨a, List.mem_cons_self a [], ?_⟩
      intro x hx
      rw [List.mem_singleton.mp hx]
    · obtain ⟨m, hm, hb⟩ := ih hrest
      by_cases hcmp : a.rowid ≤ m.rowid
      · refine ⟨m, List.mem_cons_of_mem a hm, ?_⟩
        intro x hx
        rcases List.mem_cons.mp hx with hxa | hxr
        · rw [hxa]; exact hcmp
        · exact hb x hxr
      · refine ⟨a, List.mem_cons_self a rest, ?_⟩
        intro x hx
        rcases List.mem_cons.mp hx with hxa | hxr
        · rw [hxa]
        · exact le_trans (hb x hxr) (le_of_not_le hcmp)

theorem mem_deduplicateInteractions (t : List InteractionRow) (r : InteractionRow) :
    r ∈ deduplicateInteractions t ↔
      r ∈ t ∧ ∀ x ∈ t, sameKeyRows r x = true → x.rowid ≤ r.rowid := by
  constructor
  · intro h
    have h' := List.mem_filter.mp h
    refine ⟨h'.1, fun x hx hkx => ?_⟩
    have hall := List.all_eq_true.mp h'.2 x hx
    rcases Bool.or_eq_true_iff.mp hall with hneg | hle
    · rw [Bool.not_eq_true' ] at hneg
      rw [hkx] at hneg
      exact absurd hneg (by simp)
    · exact of_decide_eq_true hle
  · intro h
    refine List.mem_filter.mpr ⟨h.1, List.all_eq_true.mpr ?_⟩
    intro x hx
    by_cases hk : sameKeyRows r x = true
    · exact Bool.or_eq_true_iff.mpr (Or.inr (decide_eq_true (h.2 x hx hk)))
    · refine Bool.or_eq_true_iff.mpr (Or.inl ?_)
      rw [Bool.not_eq_true']
      exact Bool.not_eq_true _ |>.mp hk

theorem dedup_atMostOne (t : List InteractionRow) (h : RowidsDistinct t) :
    AtMostOnePerKey (deduplicateInteractions t) := by
  intro r1 h1 r2 h2 hu hi ht
  obtain ⟨hm1, hd1⟩ := (mem_deduplicateInteractions t r1).mp h1
  obtain ⟨hm2, hd2⟩ := (mem_deduplicateInteractions t r2).mp h2
  have k12 : sameKeyRows r1 r2 = true := (sameKeyRows_iff r1 r2).mpr ⟨hu, hi, ht⟩
  have k21 : sameKeyRows r2 r1 = true :=
    (sameKeyRows_iff r2 r1).mpr ⟨hu.symm, hi.symm, ht.symm⟩
  have hle1 : r2.rowid ≤ r1.rowid := hd1 r2 hm2 k12
  have hle2 : r1.rowid ≤ r2.rowid := hd2 r1 hm1 k21
  have heq : r1.rowid = r2.rowid := le_antisymm hle2 hle1
  by_contra hne
  exact (h.forall (fun a b hab => hab.symm) hm1 hm2 hne) heq

theorem dedup_keeps_max (t : List InteractionRow) :
    ∀ r' ∈ t, ∃ r ∈ deduplicateInteractions t,
      sameKeyRows r r' = true ∧ r'.rowid ≤ r.rowid := by
  intro r' hr'
  have hrefl : sameKeyRows r' r' = true := by simp [sameKeyRows]
  have hr'G : r' ∈ t.filter (fun x => sameKeyRows x r') :=
    List.mem_filter.mpr ⟨hr', hrefl⟩
  obtain ⟨m, hmG, hmax⟩ :=
    exists_max_rowid (t.filter (fun x => sameKeyRows x r'))
      (List.ne_nil_of_mem hr'G)
  have hmt : m ∈ t := (List.mem_filter.mp hmG).1
  have hmk : sameKeyRows m r' = true := (List.mem_filter.mp hmG).2
  refine ⟨m, ?_, hmk, hmax r' hr'G⟩
  refine (mem_deduplicateInteractions t m).mpr ⟨hmt, ?_⟩
  intro x hx hkx
  have hxk : sameKeyRows x r' = true := by
    rw [sameKeyRows_iff] at hkx hmk ⊢
    exact ⟨hkx.1.symm.trans hmk.1, hkx.2.1.symm.trans hmk.2.1,
      hkx.2.2.symm.trans hmk.2.2⟩
  exact hmax x (List.mem_filter.mpr ⟨hx, hxk⟩)

/-- C2: persisting the same record twice leaves row counts unchanged; the
interactions table keeps at most one row per
`(user_id, item_id, interaction_type)` key: re-recording an interaction with
an existing key updates that row in place (the table length is unchanged),
`_deduplicate_interactions` run by `ensure_schema` removes duplicate rows
keeping the highest rowid of each key group, and the resulting uniqueness
invariant is preserved by every subsequent `record_interaction` (the unique
index installed right after the deduplication enforces exactly this). -/
theorem persistence_idempotent_unique :
    (∀ (t : List ItemRow) (a : UpsertItemArgs),
        (upsertItem (upsertItem t a) a).length = (upsertItem t a).length) ∧
      (∀ (t : List InteractionRow) (u : String) (i : Int) (ty : String)
          (ra : Option ℚ) (d : Option String),
        (recordInteraction (recordInteraction t u i ty ra d) u i ty ra d).length =
          (recordInteraction t u i ty ra d).length) ∧
      (∀ (t : List InteractionRow) (u : String) (i : Int) (ty : String)
          (ra : Option ℚ) (d : Option String), AtMostOnePerKey t →
        AtMostOnePerKey (recordInteraction t u i ty ra d)) ∧
      (∀ t : List InteractionRow, RowidsDistinct t →
        AtMostOnePerKey (deduplicateInteractions t)) ∧
      (∀ t : List InteractionRow, ∀ r' ∈ t,
        ∃ r ∈ deduplicateInteractions t,
          sameKeyRows r r' = true ∧ r'.rowid ≤ r.rowid) := by
  refine ⟨?_, ?_, ?_, ?_, ?_⟩
  · intro t a
    exact upsertItem_length_of_contains _ a (upsertItem_contains t a)
  · intro t u i ty ra d
    exact recordInteraction_length_of_contains _ u i ty ra d
      (recordInteraction_contains t u i ty ra d)
  · intro t u i ty ra d h
    exact recordInteraction_preserves_unique t u i ty ra d h
  · intro t h
    exact dedup_atMostOne t h
  · intro t r' hr'
    exact dedup_keeps_max t r' hr'

/-- C2 witness: deduplicating a table with a duplicated
`("collector1", 12345, "collection")` key yields a unique-per-key table, and
re-recording into the deduplicated table keeps the invariant. -/
theorem persistence_idempotent_unique_witness :
    AtMostOnePerKey (deduplicateInteractions exampleInteractions) ∧
      AtMostOnePerKey
        (recordInteraction exampleDeduped "wanter1" 12345 "wantlist" none none) := by
  have h := persistence_idempotent_unique
  exact ⟨h.2.2.2.1 exampleInteractions (by decide),
    h.2.2.1 exampleDeduped "wanter1" 12345 "wantlist" none none (by decide)⟩

/-- C6: the claim (and the `CASE WHEN excluded.title != ''` guard in the SQL
itself) says an incoming blank title or artist never replaces an existing
non-empty one.  But `upsert_item` binds `title or "Unknown Title"` and
`artists or "Unknown Artist"` as the inserted values, so a blank incoming
title reaches the conflict clause as the non-empty placeholder and replaces
the existing real title — the blank-guard is unreachable.  Evaluating the
model at the failing input: an existing row titled "Album Title" upserted
with a blank title and artist ends up as "Unknown Title" / "Unknown Artist"
(while genre is refreshed to the deduplicated sorted ", "-joined parse, the
part of the claim the code does satisfy). -/
theorem upsert_item_blank_title_placeholder :
    (upsertItem [exampleExistingItem] exampleBlankUpsert).map
        (fun r => (r.title, r.artist, r.genre)) =
      [("Unknown Title", "Unknown Artist", "Electronic, Rock")] ∧
      exampleExistingItem.title = "Album Title" ∧
      exampleExistingItem.artist = "Some Artist" := by
  refine ⟨?_, rfl, rfl⟩
  decide

/-- C10: `record_interaction` on an existing `(user_id, item_id,
interaction_type)` key rewrites `rating` to the incoming value (including
overwriting a stored rating with NULL when the incoming rating is None,
since the SQL sets `rating=excluded.rating` unconditionally), rewrites
`date_added` only when the incoming value is non-NULL (`COALESCE`), leaves
every other column of the row unchanged, leaves rows with other keys
unchanged, and adds no row. -/
theorem record_interaction_frame :
    ∀ (t : List InteractionRow) (u : String) (i : Int) (ty : String)
      (ra : Option ℚ) (d : Option String) (r0 : InteractionRow),
      AtMostOnePerKey t → r0 ∈ t → sameKey r0 u i ty = true →
      ((recordInteraction t u i ty ra d).length = t.length ∧
        { r0 with rating := ra, date_added := coalesce d r0.date_added } ∈
          recordInteraction t u i ty ra d ∧
        (∀ r ∈ t, sameKey r u i ty = false → r ∈ recordInteraction t u i ty ra d) ∧
        (∀ r' ∈ recordInteraction t u i ty ra d,
          r' = { r0 with rating := ra, date_added := coalesce d r0.date_added } ∨
            (r' ∈ t ∧ sameKey r' u i ty = false))) := by
  intro t u i ty ra d r0 huniq hr0 hk
  have hc : t.any (fun r => sameKey r u i ty) = true :=
    List.any_eq_true.mpr ⟨r0, hr0, hk⟩
  rw [recordInteraction, if_pos hc]
  refine ⟨List.length_map t _, ?_, ?_, ?_⟩
  · have hmem : (if sameKey r0 u i ty = true then
        { r0 with rating := ra, date_added := coalesce d r0.date_added } else r0) ∈
        t.map (fun r => if sameKey r u i ty = true then
          { r with rating := ra, date_added := coalesce d r.date_added } else r) :=
      List.mem_map_of_mem _ hr0
    rwa [if_pos hk] at hmem
  · intro r hr hkf
    have hmem : (if sameKey r u i ty = true then
        { r with rating := ra, date_added := coalesce d r.date_added } else r) ∈
        t.map (fun r => if sameKey r u i ty = true then
          { r with rating := ra, date_added := coalesce d r.date_added } else r) :=
      List.mem_map_of_mem _ hr
    rwa [if_neg (by rw [hkf]; exact Bool.false_ne_true)] at hmem
  · intro r' hr'
    rcases List.mem_map.mp hr' with ⟨s, hs, he⟩
    by_cases hks : sameKey s u i ty = true
    · left
      have hs0 : s = r0 := by
        rw [sameKey_iff] at hks hk
        exact huniq s hs r0 hr0 (hks.1.trans hk.1.symm)
          (hks.2.1.trans hk.2.1.symm) (hks.2.2.trans hk.2.2.symm)
      rw [← he, if_pos hks, hs0]
    · right
      rw [← he, if_neg hks]
      refine ⟨hs, ?_⟩
      cases hb : sameKey s u i ty with
      | false => rfl
      | true => exact absurd hb hks

/-- C10 witness: re-recording the `("collector1", 12345, "collection")` edge
with rating 4.5 and no date keeps the stored `date_added` and installs the
new rating on the existing row. -/
theorem record_interaction_frame_witness :
    ({ rowid := 2, user_id := "collector1", item_id := 12345,
       interaction_type := "collection", rating := some (9 / 2), weight := 1,
       source := none, date_added := some "2024-01-01", event_ts := none,
       review_text := none } : InteractionRow) ∈
      recordInteraction exampleDeduped "collector1" 12345 "collection"
        (some (9 / 2)) none := by
  have h := record_interaction_frame exampleDeduped "collector1" 12345
    "collection" (some (9 / 2)) none
    ⟨2, "collector1", 12345, "collection", none, 1, none, some "2024-01-01",
      none, none⟩ (by decide) (by decide) (by decide)
  exact h.2.1

theorem sessionGetAux_sleeps_zero (url : String) (d bf : ℚ)
    (outcomes : Nat → HttpOutcome) (n : Nat) :
    (sessionGetAux url d bf outcomes 0 n).sleeps = [] := by
  cases ho : outcomes n with
  | transportError => simp [sessionGetAux, ho]
  | status c =>
    by_cases hs : isSuccess c = true
    · simp [sessionGetAux, ho, hs]
    · by_cases hr : retryableStatus c = true
      · simp [sessionGetAux, ho, hs, hr]
      · simp [sessionGetAux, ho, hs, hr]

theorem sessionGetAux_sleeps_succ (url : String) (d bf : ℚ)
    (outcomes : Nat → HttpOutcome) (r n : Nat) :
    (sessionGetAux url d bf outcomes (r + 1) n).sleeps = [] ∨
      (sessionGetAux url d bf outcomes (r + 1) n).sleeps =
        d * bf ^ n :: (sessionGetAux url d bf outcomes r (n + 1)).sleeps := by
  cases ho : outcomes n with
  | transportError =>
    right
    simp [sessionGetAux, ho]
  | status c =>
    by_cases hs : isSuccess c = true
    · left
      simp [sessionGetAux, ho, hs]
    · by_cases hr : retryableStatus c = true
      · right
        simp [sessionGetAux, ho, hs, hr]
      · left
        simp [sessionGetAux, ho, hs, hr]

theorem sessionGetAux_sleeps (url : String) (d bf : ℚ)
    (outcomes : Nat → HttpOutcome) :
    ∀ (remaining n k : Nat)
      (h : k < (sessionGetAux url d bf outcomes remaining n).sleeps.length),
      (sessionGetAux url d bf outcomes remaining n).sleeps.get ⟨k, h⟩ =
        d * bf ^ (n + k) := by
  intro remaining
  induction remaining with
  | zero =>
    intro n k h
    rw [sessionGetAux_sleeps_zero] at h
    exact absurd h (by simp)
  | succ r ih =>
    intro n k h
    rcases sessionGetAux_sleeps_succ url d bf outcomes r n with hnil | hcons
    · rw [hnil] at h
      exact absurd h (by simp)
    · cases k with
      | zero =>
        simp only [List.get_eq_getElem, hcons, List.getElem_cons_zero, Nat.add_zero]
      | succ k' =>
        have hk' : k' < (sessionGetAux url d bf outcomes r (n + 1)).sleeps.length := by
          rw [hcons] at h
          simpa using h
        have hih := ih (n + 1) k' hk'
        simp only [List.get_eq_getElem] at hih
        simp only [List.get_eq_getElem, hcons, List.getElem_cons_succ]
        rw [hih]
        have harith : n + 1 + k' = n + (k' + 1) := by omega
        rw [harith]

theorem sessionGetAux_all_fail (url : String) (d bf : ℚ)
    (outcomes : Nat → HttpOutcome)
    (hall : ∀ m, retryableOutcome (outcomes m) = true) :
    ∀ remaining n,
      (sessionGetAux url d bf outcomes remaining n).attempts = remaining + 1 ∧
        (sessionGetAux url d bf outcomes remaining n).sleeps.length = remaining ∧
        errUrl (sessionGetAux url d bf outcomes remaining n).result = some url := by
  intro remaining
  induction remaining with
  | zero =>
    intro n
    cases ho : outcomes n with
    | transportError => simp [sessionGetAux, ho, errUrl]
    | status c =>
      have h := hall n
      rw [ho] at h
      simp only [retryableOutcome, Bool.and_eq_true, Bool.not_eq_true'] at h
      simp [sessionGetAux, ho, h.1, h.2, errUrl]
  | succ r ih =>
    intro n
    cases ho : outcomes n with
    | transportError =>
      have hr := ih (n + 1)
      simp [sessionGetAux, ho, hr.1, hr.2.1, hr.2.2]
    | status c =>
      have h := hall n
      rw [ho] at h
      simp only [retryableOutcome, Bool.and_eq_true, Bool.not_eq_true'] at h
      have hrec := ih (n + 1)
      simp [sessionGetAux, ho, h.1, h.2, hrec.1, hrec.2.1, hrec.2.2]

theorem sessionGetAux_attempts_pos (url : String) (d bf : ℚ)
    (outcomes : Nat → HttpOutcome) :
    ∀ remaining n, 1 ≤ (sessionGetAux url d bf outcomes remaining n).attempts := by
  intro remaining
  cases remaining with
  | zero =>
    intro n
    cases ho : outcomes n with
    | transportError => simp [sessionGetAux, ho]
    | status c =>
      by_cases hs : isSuccess c = true
      · simp [sessionGetAux, ho, hs]
      · by_cases hr : retryableStatus c = true
        · simp [sessionGetAux, ho, hs, hr]
        · simp [sessionGetAux, ho, hs, hr]
  | succ r =>
    intro n
    cases ho : outcomes n with
    | transportError => simp [sessionGetAux, ho]
    | status c =>
      by_cases hs : isSuccess c = true
      · simp [sessionGetAux, ho, hs]
      · by_cases hr : retryableStatus c = true
        · simp [sessionGetAux, ho, hs, hr]
        · simp [sessionGetAux, ho, hs, hr]

/-- C4: every backoff sleep of a `get` call follows the exponential formula —
the Nth retry (index k = N-1 in the sleep list) is preceded by a sleep of
exactly `min_delay * backoff_factor ^ (N-1)`; when every attempt fails with a
transport error or a retryable status (403/429/500/502/503/504), the call
performs the initial attempt plus exactly `max_retries` retries and then
raises a terminal error carrying the URL instead of retrying again; a first
retryable failure with retry budget left does trigger a retry (at least two
attempts); and any other non-2xx status raises a terminal error carrying the
URL immediately, with no sleep and no retry. -/
theorem session_get_retry_backoff :
    ∀ (url : String) (d bf : ℚ) (R : Nat) (outcomes : Nat → HttpOutcome),
      (∀ (k : Nat) (h : k < (sessionGet url d bf R outcomes).sleeps.length),
          (sessionGet url d bf R outcomes).sleeps.get ⟨k, h⟩ = d * bf ^ k) ∧
      ((∀ m, retryableOutcome (outcomes m) = true) →
          (sessionGet url d bf R outcomes).attempts = R + 1 ∧
          (sessionGet url d bf R outcomes).sleeps.length = R ∧
          errUrl (sessionGet url d bf R outcomes).result = some url) ∧
      (retryableOutcome (outcomes 0) = true → 0 < R →
          2 ≤ (sessionGet url d bf R outcomes).attempts) ∧
      (∀ c, outcomes 0 = HttpOutcome.status c → isSuccess c = false →
          retryableStatus c = false →
          sessionGet url d bf R outcomes =
            ⟨[], 1, .error (.unexpectedStatus url c)⟩) := by
  intro url d bf R outcomes
  refine ⟨?_, ?_, ?_, ?_⟩
  · intro k h
    simpa using sessionGetAux_sleeps url d bf outcomes R 0 k h
  · intro hall
    exact sessionGetAux_all_fail url d bf outcomes hall R 0
  · intro hretry hR
    cases R with
    | zero => exact absurd hR (by simp)
    | succ r =>
      have hpos := sessionGetAux_attempts_pos url d bf outcomes r 1
      cases ho : outcomes 0 with
      | transportError =>
        have hatt : (sessionGet url d bf (r + 1) outcomes).attempts =
            (sessionGetAux url d bf outcomes r 1).attempts + 1 := by
          simp [sessionGet, sessionGetAux, ho]
        rw [hatt]
        omega
      | status c =>
        rw [ho] at hretry
        simp only [retryableOutcome, Bool.and_eq_true, Bool.not_eq_true'] at hretry
        have hatt : (sessionGet url d bf (r + 1) outcomes).attempts =
            (sessionGetAux url d bf outcomes r 1).attempts + 1 := by
          simp [sessionGet, sessionGetAux, ho, hretry.1, hretry.2]
        rw [hatt]
        omega
  · intro c hc hs hr
    cases R with
    | zero => simp [sessionGet, sessionGetAux, hc, hs, hr]
    | succ r => simp [sessionGet, sessionGetAux, hc, hs, hr]

/-- C4 witness: with `min_delay = 2`, `backoff_factor = 5/2` and
`max_retries = 2`, a permanently-429 endpoint gets 3 attempts, 2 backoff
sleeps and a URL-carrying terminal error, while a 404 fails immediately. -/
theorem session_get_retry_backoff_witness :
    (sessionGet "https://www.discogs.com/search/" 2 (5 / 2) 2
          (fun _ => HttpOutcome.status 429)).attempts = 3 ∧
      (sessionGet "https://www.discogs.com/search/" 2 (5 / 2) 2
          (fun _ => HttpOutcome.status 429)).sleeps.length = 2 ∧
      errUrl (sessionGet "https://www.discogs.com/search/" 2 (5 / 2) 2
          (fun _ => HttpOutcome.status 429)).result =
        some "https://www.discogs.com/search/" ∧
      sessionGet "https://www.discogs.com/search/" 2 (5 / 2) 0
          (fun _ => HttpOutcome.status 404) =
        ⟨[], 1, .error (.unexpectedStatus "https://www.discogs.com/search/" 404)⟩ := by
  have h := session_get_retry_backoff "https://www.discogs.com/search/" 2 (5 / 2) 2
    (fun _ => HttpOutcome.status 429)
  have h404 := session_get_retry_backoff "https://www.discogs.com/search/" 2 (5 / 2) 0
    (fun _ => HttpOutcome.status 404)
  obtain ⟨ha, hl, hu⟩ := h.2.1 (fun m => by decide)
  exact ⟨ha, hl, hu, h404.2.2.2 404 rfl (by decide) (by decide)⟩

/-- C5: the claim also asserts that the items row written by the pipeline
carries the master id as `item_id` when the detail page exposes one.  On the
code, `_persist_release` passes `detail.release_id or summary.release_id` —
the concrete release id 5000, never the master id 1000 exposed by
`detail.master_id` (and by C1 the write itself raises `TypeError` anyway). -/
theorem canonical_item_id_counterexample :
    exampleDetail5000.master_id = some 1000 ∧
      persistReleaseItemIdArg exampleDetail5000 exampleSummary5000 = 5000 ∧
      (5000 : Int) ≠ 1000 := by
  refine ⟨rfl, ?_, by decide⟩
  decide

/-- C5 (amended): lookups resolve through `item_id` first and
`source_release_id` second, so a release first observed under a master
resolves by its raw id to the master row (raw id 5000 resolves to canonical
id 1000), a release with no master resolves to itself, and every resolved id
is the `item_id` of a row matched by one of the two lookups; but the
pipeline's `_persist_release` passes the concrete release id (from the
detail page, else the summary) as `item_id`, never the master id. -/
theorem canonical_item_id_amended :
    (resolveItemId 5000 [exampleMasterRow] = some 1000) ∧
      (resolveItemId 6000 [exampleSelfRow] = some 6000) ∧
      (∀ (t : List ItemRow) (c : Int) (r : ItemRow), r ∈ t → r.item_id = c →
        resolveItemId c t = some c) ∧
      (∀ (t : List ItemRow) (c i : Int), resolveItemId c t = some i →
        ∃ r ∈ t, r.item_id = i ∧ (r.item_id = c ∨ r.source_release_id = some c)) ∧
      (∀ (detail : ReleaseDetail) (summary : ReleaseSummary),
        persistReleaseItemIdArg detail summary = detail.release_id ∨
          persistReleaseItemIdArg detail summary = summary.release_id) := by
  refine ⟨by decide, by decide, ?_, ?_, ?_⟩
  · intro t c r hr hid
    have hsome : (t.find? (fun r => r.item_id == c)).isSome := by
      rw [List.find?_isSome]
      exact ⟨r, hr, by simp [hid]⟩
    rcases ho : t.find? (fun r => r.item_id == c) with _ | r'
    · rw [ho] at hsome
      simp at hsome
    · have hpred := List.find?_some ho
      have : r'.item_id = c := by simpa using hpred
      simp [resolveItemId, ho, this]
  · intro t c i h
    rw [resolveItemId] at h
    rcases h1 : t.find? (fun r => r.item_id == c) with _ | r1
    · rw [h1] at h
      rcases h2 : t.find? (fun r => r.source_release_id == some c) with _ | r2
      · rw [h2] at h
        exact absurd h (by simp)
      · rw [h2] at h
        have hi : r2.item_id = i := by simpa using h
        have hpred := List.find?_some h2
        exact ⟨r2, List.mem_of_find?_eq_some h2, hi,
          Or.inr (by simpa using hpred)⟩
    · rw [h1] at h
      have hi : r1.item_id = i := by simpa using h
      have hpred := List.find?_some h1
      exact ⟨r1, List.mem_of_find?_eq_some h1, hi,
        Or.inl (by simpa using hpred)⟩
  · intro detail summary
    by_cases h0 : detail.release_id = 0
    · right
      simp [persistReleaseItemIdArg, h0]
    · left
      simp [persistReleaseItemIdArg, h0]

/-- C5 (amended) witness: the self-resolution clause applied to the
no-master row, and the pipeline clause applied at the 5000/1000 scenario. -/
theorem canonical_item_id_amended_witness :
    resolveItemId 6000 [exampleSelfRow] = some 6000 ∧
      (persistReleaseItemIdArg exampleDetail5000 exampleSummary5000 =
          exampleDetail5000.release_id ∨
        persistReleaseItemIdArg exampleDetail5000 exampleSummary5000 =
          exampleSummary5000.release_id) := by
  have h := canonical_item_id_amended
  exact ⟨h.2.2.1 [exampleSelfRow] 6000 exampleSelfRow (by decide) (by decide),
    h.2.2.2.2 exampleDetail5000 exampleSummary5000⟩

/-- C8: with a cached jar in place, `apply` re-parses the cookie file only
when the file's modification time differs from the recorded one, when the
configured refresh interval has elapsed, or when `force=true`; otherwise it
returns the cached jar unchanged without re-parsing.  When a re-parse is
triggered and the file is malformed, the loader falls back to the previously
cached jar and leaves the cache untouched rather than propagating the
error; a successful re-parse installs and returns the fresh jar.  (A state
with a cached jar always carries a recorded mtime and refresh time, since
the three fields are only ever set together.) -/
theorem cookie_loader_cache_reuse :
    ∀ (jar0 : List (String × String)) (m0 lr : ℚ) (ri : Option ℚ)
      (force : Bool) (m now : ℚ) (parse : Except Unit (List (String × String))),
      ((force = false ∧ m = m0 ∧
          intervalElapsed (normalizeInterval ri) (some lr) now = false) →
        getCookieJar ⟨some jar0, some m0, some lr, ri⟩ force (some m) now parse =
          ⟨some jar0, ⟨some jar0, some m0, some lr, normalizeInterval ri⟩, false⟩) ∧
      ((getCookieJar ⟨some jar0, some m0, some lr, ri⟩ force (some m) now
          parse).reparsed = true →
        force = true ∨ m ≠ m0 ∨
          intervalElapsed (normalizeInterval ri) (some lr) now = true) ∧
      (∀ e, parse = Except.error e →
        (getCookieJar ⟨some jar0, some m0, some lr, ri⟩ force (some m) now
            parse).jar = some jar0 ∧
          (getCookieJar ⟨some jar0, some m0, some lr, ri⟩ force (some m) now
              parse).state.cachedJar = some jar0) ∧
      (∀ jar, parse = Except.ok jar →
        (force = true ∨ m ≠ m0 ∨
          intervalElapsed (normalizeInterval ri) (some lr) now = true) →
        getCookieJar ⟨some jar0, some m0, some lr, ri⟩ force (some m) now parse =
          ⟨some jar, ⟨some jar, some m, some now, normalizeInterval ri⟩, true⟩) := by
  intro jar0 m0 lr ri force m now parse
  have hno : ∀ (p : Except Unit (List (String × String))), force = false → m = m0 →
      intervalElapsed (normalizeInterval ri) (some lr) now = false →
      getCookieJar ⟨some jar0, some m0, some lr, ri⟩ force (some m) now p =
        ⟨some jar0, ⟨some jar0, some m0, some lr, normalizeInterval ri⟩, false⟩ := by
    intro p hf hm he
    subst hf
    subst hm
    simp [getCookieJar, he]
  have hyesErr : ∀ e : Unit,
      (force = true ∨ m ≠ m0 ∨
        intervalElapsed (normalizeInterval ri) (some lr) now = true) →
      getCookieJar ⟨some jar0, some m0, some lr, ri⟩ force (some m) now
          (Except.error e) =
        ⟨some jar0, ⟨some jar0, some m0, some lr, normalizeInterval ri⟩, true⟩ := by
    intro e htrig
    rcases htrig with hf | hm | he
    · simp [getCookieJar, hf]
    · simp [getCookieJar, hm]
    · simp [getCookieJar, he]
  have hyesOk : ∀ jar : List (String × String),
      (force = true ∨ m ≠ m0 ∨
        intervalElapsed (normalizeInterval ri) (some lr) now = true) →
      getCookieJar ⟨some jar0, some m0, some lr, ri⟩ force (some m) now
          (Except.ok jar) =
        ⟨some jar, ⟨some jar, some m, some now, normalizeInterval ri⟩, true⟩ := by
    intro jar htrig
    rcases htrig with hf | hm | he
    · simp [getCookieJar, hf]
    · simp [getCookieJar, hm]
    · simp [getCookieJar, he]
  refine ⟨fun h => hno parse h.1 h.2.1 h.2.2, ?_, ?_, ?_⟩
  · intro hrep
    by_cases hf : force = true
    · exact Or.inl hf
    · by_cases hm : m = m0
      · by_cases he : intervalElapsed (normalizeInterval ri) (some lr) now = true
        · exact Or.inr (Or.inr he)
        · exfalso
          rw [hno parse (by simpa using hf) hm (by simpa using he)] at hrep
          simp at hrep
      · exact Or.inr (Or.inl hm)
  · intro e hparse
    subst hparse
    by_cases hf : force = true
    · rw [hyesErr e (Or.inl hf)]
      exact ⟨rfl, rfl⟩
    · by_cases hm : m = m0
      · by_cases he : intervalElapsed (normalizeInterval ri) (some lr) now = true
        · rw [hyesErr e (Or.inr (Or.inr he))]
          exact ⟨rfl, rfl⟩
        · rw [hno _ (by simpa using hf) hm (by simpa using he)]
          exact ⟨rfl, rfl⟩
      · rw [hyesErr e (Or.inr (Or.inl hm))]
        exact ⟨rfl, rfl⟩
  · intro jar hparse htrig
    subst hparse
    exact hyesOk jar htrig

/-- C8 witness: a fresh cookie value written to the file is picked up on a
forced reload, while without force, mtime change or interval lapse the
cached jar is reused unchanged. -/
theorem cookie_loader_cache_reuse_witness :
    getCookieJar ⟨some [("session", "abc")], some 10, some 0, some 900⟩ false
        (some 10) 100 (Except.ok [("session", "new")]) =
      ⟨some [("session", "abc")],
        ⟨some [("session", "abc")], some 10, some 0, some 900⟩, false⟩ ∧
      getCookieJar ⟨some [("session", "abc")], some 10, some 0, some 900⟩ true
        (some 10) 100 (Except.ok [("session", "new")]) =
      ⟨some [("session", "new")],
        ⟨some [("session", "new")], some 10, some 100, some 900⟩, true⟩ := by
  have hnorm : normalizeInterval (some (900 : ℚ)) = some 900 := by
    simp only [normalizeInterval, if_neg (by norm_num : ¬((900 : ℚ) ≤ 0))]
  have hel : intervalElapsed (normalizeInterval (some (900 : ℚ))) (some 0) 100 = false := by
    rw [hnorm]
    simp only [intervalElapsed]
    rw [decide_eq_false_iff_not]
    norm_num
  have h := cookie_loader_cache_reuse [("session", "abc")] 10 0 (some 900)
    false 10 100 (Except.ok [("session", "new")])
  have hforce := cookie_loader_cache_reuse [("session", "abc")] 10 0 (some 900)
    true 10 100 (Except.ok [("session", "new")])
  constructor
  · rw [h.1 ⟨rfl, rfl, hel⟩, hnorm]
  · rw [hforce.2.2.2 [("session", "new")] rfl (Or.inl rfl), hnorm]

theorem fetchUserListAux_spec (pages : Nat → PageOutcome) :
    ∀ (remaining page : Nat) (seen collected : List String) (fetched : Nat),
      page = fetched + 1 →
      ((fetchUserListAux pages remaining page seen collected fetched).pagesFetched ≤
          fetched + remaining ∧
        ((fetchUserListAux pages remaining page seen collected fetched).stopReason =
            none →
          (fetchUserListAux pages remaining page seen collected fetched).pagesFetched =
            fetched + remaining) ∧
        ((fetchUserListAux pages remaining page seen collected fetched).stopReason =
            some StopReason.fetchFail →
          pages (fetchUserListAux pages remaining page seen collected
              fetched).pagesFetched = PageOutcome.fetchError) ∧
        ((fetchUserListAux pages remaining page seen collected fetched).stopReason =
            some StopReason.emptyPage →
          pages (fetchUserListAux pages remaining page seen collected
              fetched).pagesFetched = PageOutcome.pageUsers []) ∧
        (∀ reason,
          (fetchUserListAux pages remaining page seen collected fetched).stopReason =
            some reason →
          (reason = StopReason.allDuplicates ∨
            reason = StopReason.partialDuplicates) →
          ∃ names, pages (fetchUserListAux pages remaining page seen collected
              fetched).pagesFetched = PageOutcome.pageUsers names ∧ names ≠ [])) := by
  intro remaining
  induction remaining with
  | zero =>
    intro page seen collected fetched hpage
    refine ⟨by simp [fetchUserListAux], ?_, ?_, ?_, ?_⟩
    · intro _
      simp [fetchUserListAux]
    · intro h
      simp [fetchUserListAux] at h
    · intro h
      simp [fetchUserListAux] at h
    · intro reason h _
      simp [fetchUserListAux] at h
  | succ r ih =>
    intro page seen collected fetched hpage
    cases hp : pages page with
    | fetchError =>
      refine ⟨?_, ?_, ?_, ?_, ?_⟩
      · simp only [fetchUserListAux, hp]
        omega
      · intro h
        simp only [fetchUserListAux, hp] at h
        exact absurd h (by simp)
      · intro _
        simp only [fetchUserListAux, hp]
        rw [← hpage]
        exact hp
      · intro h
        simp only [fetchUserListAux, hp, Option.some.injEq] at h
        exact absurd h (by simp)
      · intro reason h hor
        simp only [fetchUserListAux, hp, Option.some.injEq] at h
        rcases hor with h1 | h1 <;> rw [h1] at h <;> exact absurd h (by simp)
    | pageUsers names =>
      by_cases hempty : names.isEmpty = true
      · refine ⟨?_, ?_, ?_, ?_, ?_⟩
        · simp only [fetchUserListAux, hp, if_pos hempty]
          omega
        · intro h
          simp only [fetchUserListAux, hp, if_pos hempty] at h
          exact absurd h (by simp)
        · intro h
          simp only [fetchUserListAux, hp, if_pos hempty, Option.some.injEq] at h
          exact absurd h (by simp)
        · intro _
          simp only [fetchUserListAux, hp, if_pos hempty]
          rw [← hpage, hp, List.isEmpty_iff.mp hempty]
        · intro reason h hor
          simp only [fetchUserListAux, hp, if_pos hempty, Option.some.injEq] at h
          rcases hor with h1 | h1 <;> rw [h1] at h <;> exact absurd h (by simp)
      · by_cases hnew :
          (names.filter (fun u => !(seen.contains (strLower u)))).isEmpty = true
        · refine ⟨?_, ?_, ?_, ?_, ?_⟩
          · simp only [fetchUserListAux, hp, if_neg hempty, if_pos hnew]
            omega
          · intro h
            simp only [fetchUserListAux, hp, if_neg hempty, if_pos hnew] at h
            exact absurd h (by simp)
          · intro h
            simp only [fetchUserListAux, hp, if_neg hempty, if_pos hnew,
              Option.some.injEq] at h
            exact absurd h (by simp)
          · intro h
            simp only [fetchUserListAux, hp, if_neg hempty, if_pos hnew,
              Option.some.injEq] at h
            exact absurd h (by simp)
          · intro reason h hor
            refine ⟨names, ?_, ?_⟩
            · simp only [fetchUserListAux, hp, if_neg hempty, if_pos hnew]
              rw [← hpage]
              exact hp
            · intro hnil
              rw [hnil] at hempty
              exact hempty rfl
        · by_cases hlt :
            (names.filter (fun u => !(seen.contains (strLower u)))).length <
              names.length
          · refine ⟨?_, ?_, ?_, ?_, ?_⟩
            · simp only [fetchUserListAux, hp, if_neg hempty, if_neg hnew,
                if_pos hlt]
              omega
            · intro h
              simp only [fetchUserListAux, hp, if_neg hempty, if_neg hnew,
                if_pos hlt] at h
              exact absurd h (by simp)
            · intro h
              simp only [fetchUserListAux, hp, if_neg hempty, if_neg hnew,
                if_pos hlt, Option.some.injEq] at h
              exact absurd h (by simp)
            · intro h
              simp only [fetchUserListAux, hp, if_neg hempty, if_neg hnew,
                if_pos hlt, Option.some.injEq] at h
              exact absurd h (by simp)
            · intro reason h hor
              refine ⟨names, ?_, ?_⟩
              · simp only [fetchUserListAux, hp, if_neg hempty, if_neg hnew,
                  if_pos hlt]
                rw [← hpage]
                exact hp
              · intro hnil
                rw [hnil] at hempty
                exact hempty rfl
          · have hrec := ih (page + 1)
              (seen ++ (names.filter (fun u => !(seen.contains (strLower u)))).map
                (fun u => strLower u))
              (collected ++ names.filter (fun u => !(seen.contains (strLower u))))
              (fetched + 1) (by omega)
            have hred : fetchUserListAux pages (r + 1) page seen collected fetched =
                fetchUserListAux pages r (page + 1)
                  (seen ++ (names.filter (fun u => !(seen.contains (strLower u)))).map
                    (fun u => strLower u))
                  (collected ++ names.filter (fun u => !(seen.contains (strLower u))))
                  (fetched + 1) := by
              simp only [fetchUserListAux, hp, if_neg hempty, if_neg hnew,
                if_neg hlt]
            rw [hred]
            have harith : fetched + 1 + r = fetched + (r + 1) := by omega
            exact ⟨by rw [← harith]; exact hrec.1,
              by rw [← harith]; exact hrec.2.1,
              hrec.2.2.1, hrec.2.2.2.1, hrec.2.2.2.2⟩

/-- C9: the claim says fetching stops exactly on an empty page, a
majority-duplicate page, or budget exhaustion.  On the code, the loop breaks
as soon as one username of a page was already seen: with a budget of 3
pages, page 2 carrying a single duplicate out of three names (a minority —
2·1 < 3) already stops the fetch after 2 pages, with the budget unspent and
page 3 never requested. -/
theorem fetch_user_list_minority_duplicate_stops :
    fetchUserList examplePages 3 =
      ⟨["a", "b", "c", "d", "e"], 2, some StopReason.partialDuplicates⟩ ∧
      (["a", "d", "e"].filter (fun u => ["a", "b", "c"].contains u)).length = 1 ∧
      2 * 1 < 3 := by
  refine ⟨?_, by decide, by decide⟩
  decide

/-- C9 (amended): per interaction kind at most `max_user_pages` supplementary
pages are fetched, the full budget is used only when no early stop occurs,
and fetching stops early exactly on a fetch failure, a page with no
usernames, or a (non-empty) page containing at least one already-seen
username — any duplicate, not only a majority of duplicates. -/
theorem fetch_user_list_stop_conditions :
    ∀ (pages : Nat → PageOutcome) (maxUserPages : Nat),
      ((fetchUserList pages maxUserPages).pagesFetched ≤ maxUserPages) ∧
      ((fetchUserList pages maxUserPages).stopReason = none →
        (fetchUserList pages maxUserPages).pagesFetched = maxUserPages) ∧
      ((fetchUserList pages maxUserPages).stopReason = some StopReason.fetchFail →
        pages (fetchUserList pages maxUserPages).pagesFetched =
          PageOutcome.fetchError) ∧
      ((fetchUserList pages maxUserPages).stopReason = some StopReason.emptyPage →
        pages (fetchUserList pages maxUserPages).pagesFetched =
          PageOutcome.pageUsers []) ∧
      (∀ reason, (fetchUserList pages maxUserPages).stopReason = some reason →
        (reason = StopReason.allDuplicates ∨
          reason = StopReason.partialDuplicates) →
        ∃ names, pages (fetchUserList pages maxUserPages).pagesFetched =
            PageOutcome.pageUsers names ∧ names ≠ []) := by
  intro pages maxUserPages
  have h := fetchUserListAux_spec pages maxUserPages 1 [] [] 0 rfl
  simpa [fetchUserList] using h

/-- C9 (amended) witness: the run over `examplePages` respects the 3-page
budget and its early stop points at a non-empty page. -/
theorem fetch_user_list_stop_conditions_witness :
    (fetchUserList examplePages 3).pagesFetched ≤ 3 ∧
      (∃ names, examplePages (fetchUserList examplePages 3).pagesFetched =
          PageOutcome.pageUsers names ∧ names ≠ []) := by
  have h := fetch_user_list_stop_conditions examplePages 3
  exact ⟨h.1, h.2.2.2.2 StopReason.partialDuplicates (by decide) (Or.inr rfl)⟩
